import Mathlib

/-!
Verification of the crawl execution engine of the flask_web_scraper repository.

This file shallowly embeds the parts of the Python source that the spec's
claims are about:

* `progress_tracker.py` — `ProgressTracker.get_percentage` and the progress
  updates the spider performs (floats are modelled as rationals);
* `spider.py` — `WebCrawlerSpider._extract_links`, `start_requests`, `parse`,
  `spider_closed`, `AssetUploader.download_and_upload` and
  `AssetUploader.upload_assets_concurrent`;
* `pipelines.py` — `PostgreSQLPipeline.close_spider`;
* `operations.py` — `DatabaseOperations.update_crawl_statistics`;
* `celery_app.py` / `app.py` — the supervising tasks around the spider
  subprocess.

URLs and other Python strings are modelled as lists of characters.  Library
functions whose internals are irrelevant to the claims (the md5 hex digest,
`urllib.parse.urljoin`) are taken as parameters of the definitions; everything
the claims depend on is translated from the source.
-/

namespace FlaskWebScraper

/-- Python strings (URLs, hashes, status values) are modelled as `List Char`. -/
abbrev Url := List Char

/-- Coerce a Lean string literal to the `List Char` model. -/
def str (s : String) : Url := s.data

/-! ## progress_tracker.py -/

/-- Python `round(x, 2)` (progress_tracker.py line 77): round to two decimal
places.  Mathlib's `round` rounds halves up while Python rounds halves to
even; no claim depends on the tie-breaking rule. -/
def round2 (x : ℚ) : ℚ := ((round (x * 100) : ℤ) : ℚ) / 100

/-- `ProgressTracker.get_percentage` (progress_tracker.py lines 70-80): with the
stored progress value and stored total, return `0.0` when the total is `0`,
otherwise `round(min((progress / total) * 100, 100.0), 2)`. -/
def get_percentage (progress : ℚ) (total : ℤ) : ℚ :=
  if total = 0 then 0 else round2 (min ((progress / (total : ℚ)) * 100) 100)

/-- The spec's formula for the percentage (spec.md §3, ProgressCounter):
`min(100, 100·numerator/denominator)` rounded to 2 decimals, `0` for a zero
denominator.  Stated separately from `get_percentage` so that the two can be
compared. -/
def spec_percentage (progress : ℚ) (total : ℤ) : ℚ :=
  if total = 0 then 0 else round2 (min 100 (100 * progress / (total : ℚ)))

theorem round_mono' {a b : ℚ} (h : a ≤ b) : round a ≤ round b := by
  rw [round_eq, round_eq]
  exact Int.floor_mono (by linarith)

theorem round2_mono {a b : ℚ} (h : a ≤ b) : round2 a ≤ round2 b := by
  unfold round2
  have h1 : round (a * 100) ≤ round (b * 100) := round_mono' (by linarith)
  have h2 : ((round (a * 100) : ℤ) : ℚ) ≤ ((round (b * 100) : ℤ) : ℚ) := by exact_mod_cast h1
  linarith

theorem round2_nonneg {a : ℚ} (h : 0 ≤ a) : 0 ≤ round2 a := by
  unfold round2
  have h1 : round (0 : ℚ) ≤ round (a * 100) := round_mono' (by linarith)
  rw [round_zero] at h1
  have h2 : (0 : ℚ) ≤ ((round (a * 100) : ℤ) : ℚ) := by exact_mod_cast h1
  linarith

theorem round2_le_100 {a : ℚ} (h : a ≤ 100) : round2 a ≤ 100 := by
  unfold round2
  have h1 : round (a * 100) ≤ round ((10000 : ℤ) : ℚ) := round_mono' (by push_cast; linarith)
  rw [round_intCast] at h1
  have h2 : ((round (a * 100) : ℤ) : ℚ) ≤ ((10000 : ℤ) : ℚ) := by exact_mod_cast h1
  push_cast at h2
  linarith

/-- C3: for every stored progress value `p ≥ 0` and stored total `t ≥ 0` (the
only values the program ever stores: progress is set to `0` or `100` or
incremented by a positive amount, the total is always set to `100`),
`get_percentage` returns `min(100, 100·p/t)` rounded to 2 decimal places,
returns `0` when `t = 0`, and every returned value lies in `[0, 100]`. -/
theorem get_percentage_spec (p : ℚ) (t : ℤ) (hp : 0 ≤ p) (ht : 0 ≤ t) :
    get_percentage p t = spec_percentage p t ∧
    0 ≤ get_percentage p t ∧ get_percentage p t ≤ 100 := by
  unfold get_percentage spec_percentage
  by_cases h0 : t = 0
  · simp [h0]
  · have htpos : (0 : ℚ) < (t : ℚ) := by
      have : 0 < t := lt_of_le_of_ne ht (Ne.symm h0)
      exact_mod_cast this
    have harg : (p / (t : ℚ)) * 100 = 100 * p / (t : ℚ) := by ring
    refine ⟨?_, ?_, ?_⟩
    · rw [if_neg h0, if_neg h0, harg, min_comm]
    · rw [if_neg h0]
      apply round2_nonneg
      have : 0 ≤ (p / (t : ℚ)) * 100 := by positivity
      exact le_min this (by norm_num)
    · rw [if_neg h0]
      exact round2_le_100 (min_le_right _ _)

/-- Witness for C3 at the concrete stored values `p = 37`, `t = 100`. -/
theorem get_percentage_spec_witness :
    0 ≤ (37 : ℚ) ∧ 0 ≤ (100 : ℤ) ∧
    (get_percentage 37 100 = spec_percentage 37 100 ∧
     0 ≤ get_percentage 37 100 ∧ get_percentage 37 100 ≤ 100) :=
  ⟨by norm_num, by norm_num, get_percentage_spec 37 100 (by norm_num) (by norm_num)⟩

/-! ## Progress updates performed by a run (spider.py) -/

/-- `CLOSESPIDER_PAGECOUNT` (spider.py custom_settings, line 182). -/
def CLOSESPIDER_PAGECOUNT : ℕ := 100

/-- The fixed per-page increment (spider.py line 335):
`100.0 / max(CLOSESPIDER_PAGECOUNT, 1)`. -/
def progress_increment : ℚ := 100 / ((max CLOSESPIDER_PAGECOUNT 1 : ℕ) : ℚ)

/-- The state the progress store holds for a domain: the progress value and the
total (progress_tracker.py keys `progress:{domain}` and `total:{domain}`,
written via `set_progress` / `incrbyfloat` / `set_total`). -/
structure TrackerState where
  progress : ℚ
  total : ℤ
deriving DecidableEq

/-- State after `ProgressTracker.reset()` (progress_tracker.py lines 82-90):
`set_progress(0)` then `set_total(100)`.  Every run starts from this state
(celery_app.py lines 45-47, app.py lines 40-42). -/
def tracker_reset : TrackerState := ⟨0, 100⟩

/-- The progress updates a run performs after the reset:
`increment_progress(progress_increment)` for each parsed page
(spider.py line 336) and `set_progress(100)` at spider close
(spider.py line 283). -/
inductive ProgressEvent
  | pageParsed
  | closeSet100

/-- Effect of one update on the stored state (`incrbyfloat` adds, `set`
overwrites; `set_total` is never called again during a run). -/
def applyProgressEvent (s : TrackerState) : ProgressEvent → TrackerState
  | .pageParsed => { s with progress := s.progress + progress_increment }
  | .closeSet100 => { s with progress := 100 }

/-- The percentage `get_percentage()` reports in a given stored state. -/
def pct (s : TrackerState) : ℚ := get_percentage s.progress s.total

/-- The sequence of values `get_percentage()` returns over a run: one reading
in the reset state and one after each update. -/
def pctTrace (events : List ProgressEvent) : List ℚ :=
  (events.scanl applyProgressEvent tracker_reset).map pct

theorem applyProgressEvent_total (s : TrackerState) (e : ProgressEvent) :
    (applyProgressEvent s e).total = s.total := by
  cases e <;> rfl

theorem pct_le_of_total_100 (s : TrackerState) (e : ProgressEvent)
    (hs : s.total = 100) : pct s ≤ pct (applyProgressEvent s e) := by
  have hsimp : ∀ p : ℚ, get_percentage p 100 = round2 (min p 100) := by
    intro p
    unfold get_percentage
    rw [if_neg (by norm_num)]
    norm_num
  have hincr : progress_increment = 1 := by
    unfold progress_increment CLOSESPIDER_PAGECOUNT
    norm_num
  cases e with
  | pageParsed =>
      show pct s ≤ pct ⟨s.progress + progress_increment, s.total⟩
      unfold pct
      rw [hs, hsimp, hsimp, hincr]
      refine round2_mono (min_le_min ?_ le_rfl)
      show s.progress ≤ s.progress + 1
      linarith
  | closeSet100 =>
      show pct s ≤ pct ⟨100, s.total⟩
      unfold pct
      rw [hs, hsimp, hsimp]
      exact round2_mono (by simp)

theorem scanl_head_eq {α β : Type} (f : α → β → α) (b : α) (l : List β) :
    (l.scanl f b).head? = some b := by
  cases l <;> rfl

theorem chain_pct_scanl (events : List ProgressEvent) (s : TrackerState)
    (hs : s.total = 100) :
    List.Chain' (fun a b => pct a ≤ pct b) (events.scanl applyProgressEvent s) := by
  induction events generalizing s with
  | nil => simp [List.scanl]
  | cons e es ih =>
      rw [List.scanl]
      apply List.chain'_cons'.mpr
      refine ⟨?_, ih (applyProgressEvent s e) (by rw [applyProgressEvent_total, hs])⟩
      intro y hy
      rw [scanl_head_eq] at hy
      cases hy
      exact pct_le_of_total_100 s e hs

/-- C4: over the lifetime of a run, the sequence of values returned by
`get_percentage()` is non-decreasing: after every prefix of the run's updates
(per-page `increment_progress` with the fixed positive increment and the
close-time `set_progress(100)`), the reported percentage is greater than or
equal to every previously reported value. -/
theorem pctTrace_monotone (events : List ProgressEvent) :
    (pctTrace events).Pairwise (· ≤ ·) := by
  unfold pctTrace
  rw [List.pairwise_map]
  have htrans : IsTrans TrackerState (fun a b => pct a ≤ pct b) :=
    ⟨fun _ _ _ hab hbc => le_trans hab hbc⟩
  exact List.chain'_iff_pairwise.mp (chain_pct_scanl events tracker_reset rfl)

/-! ## URL handling in spider.py -/

/-- Python `urllib.parse.urldefrag(u)[0]`: the URL up to (excluding) the first
`'#'`; unchanged when there is no fragment. -/
def urldefrag (u : Url) : Url := u.takeWhile (fun c => c != '#')

/-- Helper for `netloc`: the characters after the first `"://"`, if any. -/
def afterSchemeSep : Url → Option Url
  | [] => none
  | c :: rest =>
    if c = ':' ∧ ['/', '/'] <+: rest then some (rest.drop 2)
    else afterSchemeSep rest

/-- Python `urllib.parse.urlparse(u).netloc` for the http/https URLs the spider
compares against its scoped domain: the substring after `"://"` up to the first
of `'/'`, `'?'`, `'#'`; empty when the URL has no `"://"` (relative URLs). -/
def netloc (u : Url) : Url :=
  match afterSchemeSep u with
  | some r => r.takeWhile (fun c => c != '/' && c != '?' && c != '#')
  | none => []

/-- The binary skip-list (spider.py line 488). -/
def skip_ext : List Url :=
  [str ".pdf", str ".jpg", str ".jpeg", str ".png", str ".gif", str ".zip",
   str ".mp4", str ".mp3"]

/-- `absolute_url.lower()` (spider.py line 489). -/
def lowerUrl (u : Url) : Url := u.map Char.toLower

/-- `absolute_url.lower().endswith(skip_ext)` (spider.py lines 488-489). -/
def hasSkipExt (u : Url) : Bool := skip_ext.any (fun e => e.isSuffixOf (lowerUrl u))

/-- `link.startswith(('#', 'javascript:', 'mailto:'))` (spider.py line 479). -/
def isBlockedHref (link : Url) : Bool :=
  (str "#").isPrefixOf link || (str "javascript:").isPrefixOf link ||
    (str "mailto:").isPrefixOf link

/-- `max_links` (spider.py line 473). -/
def max_links : ℕ := 30

/-- The loop body of `WebCrawlerSpider._extract_links` (spider.py lines
475-499), with the md5 hex digest `h` and `urllib.parse.urljoin` `join` as
parameters.  Arguments: remaining `links`, the `followed` counter, and the
spider's `urls_seen` set (modelled as the list of fingerprints inserted so
far).  Returns the yielded request URLs and the updated `urls_seen`. -/
def extractLinksAux (h : Url → Url) (join : Url → Url → Url) (domain base : Url) :
    List Url → ℕ → List Url → List Url × List Url
  | [], _, seen => ([], seen)
  | link :: rest, followed, seen =>
    if max_links ≤ followed then ([], seen)
    else if link = [] || isBlockedHref link then
      extractLinksAux h join domain base rest followed seen
    else if netloc (urldefrag (join base link)) ≠ domain then
      extractLinksAux h join domain base rest followed seen
    else if hasSkipExt (urldefrag (join base link)) then
      extractLinksAux h join domain base rest followed seen
    else if h (urldefrag (join base link)) ∈ seen then
      extractLinksAux h join domain base rest followed seen
    else
      (urldefrag (join base link) ::
        (extractLinksAux h join domain base rest (followed + 1)
          (h (urldefrag (join base link)) :: seen)).1,
       (extractLinksAux h join domain base rest (followed + 1)
          (h (urldefrag (join base link)) :: seen)).2)

/-- `WebCrawlerSpider._extract_links` (spider.py lines 468-504): run the loop
with `followed = 0` over the page's hrefs. -/
def extract_links (h : Url → Url) (join : Url → Url → Url) (domain base : Url)
    (links seen : List Url) : List Url × List Url :=
  extractLinksAux h join domain base links 0 seen

/-- The frontier fingerprint (spider.py lines 482, 492):
`hashlib.md5(urldefrag(urljoin(...))[0].encode()).hexdigest()`, i.e. the hash
`h` applied to the fragment-stripped URL. -/
def fingerprint (h : Url → Url) (u : Url) : Url := h (urldefrag u)

/-- `b` followed by an optional `'#'`-introduced fragment. -/
def withFrag (b : Url) : Option Url → Url
  | none => b
  | some f => b ++ '#' :: f

/-- Two URLs differ only in their fragment component: same fragment-free part
`b`, arbitrary (possibly absent) fragments. -/
def differOnlyInFragment (u1 u2 : Url) : Prop :=
  ∃ b f1 f2, (∀ c ∈ b, c ≠ '#') ∧ u1 = withFrag b f1 ∧ u2 = withFrag b f2

theorem takeWhile_hash_append (b : Url) (hb : ∀ c ∈ b, c ≠ '#') (f : Url) :
    (b ++ '#' :: f).takeWhile (fun c => c != '#') = b := by
  induction b with
  | nil => simp [List.takeWhile]
  | cons c bs ih =>
      have hc : c ≠ '#' := hb c (by simp)
      have hbs : ∀ x ∈ bs, x ≠ '#' := fun x hx => hb x (by simp [hx])
      have hct : (c != '#') = true := by simpa using hc
      simp only [List.cons_append, List.takeWhile, hct, List.append_eq]
      rw [ih hbs]

theorem urldefrag_withFrag (b : Url) (hb : ∀ c ∈ b, c ≠ '#') (f : Option Url) :
    urldefrag (withFrag b f) = b := by
  cases f with
  | none =>
      unfold urldefrag withFrag
      rw [List.takeWhile_eq_self_iff.mpr]
      intro x hx
      simpa using hb x hx
  | some f => exact takeWhile_hash_append b hb f

/-- C5: two URLs that differ only in their fragment component have equal
frontier fingerprints, for any hash function. -/
theorem fingerprint_fragment_invariant (h : Url → Url) (u1 u2 : Url)
    (hd : differOnlyInFragment u1 u2) : fingerprint h u1 = fingerprint h u2 := by
  obtain ⟨b, f1, f2, hb, h1, h2⟩ := hd
  unfold fingerprint
  rw [h1, h2, urldefrag_withFrag b hb f1, urldefrag_withFrag b hb f2]

/-- Witness for C5 at two concrete URLs differing only in fragment. -/
theorem fingerprint_fragment_invariant_witness :
    differOnlyInFragment (str "http://example.com/p#a") (str "http://example.com/p#b") ∧
    fingerprint id (str "http://example.com/p#a") =
      fingerprint id (str "http://example.com/p#b") := by
  have hd : differOnlyInFragment (str "http://example.com/p#a")
      (str "http://example.com/p#b") :=
    ⟨str "http://example.com/p", some (str "a"), some (str "b"),
      by decide, by decide, by decide⟩
  exact ⟨hd, fingerprint_fragment_invariant id _ _ hd⟩

theorem hash_not_mem_urldefrag (l : Url) : '#' ∉ urldefrag l := by
  intro hmem
  have h1 := List.mem_takeWhile_imp hmem
  simp at h1

theorem str_scheme_sep : str "://" = [':', '/', '/'] := by decide

theorem afterSchemeSep_split (u r : Url) (h : afterSchemeSep u = some r) :
    ∃ pre, u = pre ++ (str "://" ++ r) := by
  induction u with
  | nil => simp [afterSchemeSep] at h
  | cons c rest ih =>
      rw [afterSchemeSep] at h
      split_ifs at h with hc
      · obtain ⟨hc1, t, ht⟩ := hc
        refine ⟨[], ?_⟩
        rw [Option.some_inj] at h
        subst hc1
        rw [← ht] at h ⊢
        simp at h
        simp [str_scheme_sep, ← h]
      · obtain ⟨pre, hp⟩ := ih h
        exact ⟨c :: pre, by rw [hp]; rfl⟩

theorem extractLinksAux_capped (h : Url → Url) (join : Url → Url → Url)
    (domain base : Url) (links : List Url) (f : ℕ) (s : List Url)
    (hf : max_links ≤ f) : extractLinksAux h join domain base links f s = ([], s) := by
  cases links with
  | nil => rfl
  | cons l r => rw [extractLinksAux, if_pos hf]

theorem extractLinksAux_length (h : Url → Url) (join : Url → Url → Url)
    (domain base : Url) (links : List Url) :
    ∀ followed seen,
      (extractLinksAux h join domain base links followed seen).1.length ≤
        max_links - followed := by
  induction links with
  | nil => intro f s; simp [extractLinksAux]
  | cons link rest ih =>
      intro f s
      rw [extractLinksAux]
      split_ifs with h1 h2 h3 h4 h5
      · simp
      · exact ih f s
      · exact ih f s
      · exact ih f s
      · exact ih f s
      · have hrec := ih (f + 1) (h (urldefrag (join base link)) :: s)
        simp only [List.length_cons]
        unfold max_links at h1 hrec ⊢
        omega

theorem extractLinksAux_mem (h : Url → Url) (join : Url → Url → Url)
    (domain base : Url) (links : List Url) :
    ∀ followed seen u, u ∈ (extractLinksAux h join domain base links followed seen).1 →
      netloc u = domain ∧ hasSkipExt u = false ∧
        ∃ link, u = urldefrag (join base link) := by
  induction links with
  | nil => intro f s u hu; simp [extractLinksAux] at hu
  | cons link rest ih =>
      intro f s u hu
      rw [extractLinksAux] at hu
      split_ifs at hu with h1 h2 h3 h4 h5
      · simp at hu
      · exact ih f s u hu
      · exact ih f s u hu
      · exact ih f s u hu
      · exact ih f s u hu
      · rcases List.mem_cons.mp hu with rfl | hu2
        · exact ⟨not_ne_iff.mp h3, Bool.not_eq_true _ ▸ eq_false_of_ne_true h4,
            link, rfl⟩
        · exact ih (f + 1) (h (urldefrag (join base link)) :: s) u hu2

/-- C6: on every page, `_extract_links` yields at most 30 link requests; every
yielded URL has `urlparse(...).netloc` exactly equal to the scoped domain (in
particular it is an absolute URL containing `"://"` whenever the domain is
non-empty), is fragment-stripped (contains no `'#'`), and does not end
(case-insensitively) with a skip-list extension; and an empty href or an href
starting with `'#'`, `"javascript:"` or `"mailto:"` is skipped outright,
yielding nothing. -/
theorem extract_links_filters (h : Url → Url) (join : Url → Url → Url)
    (domain base : Url) (links seen : List Url) :
    (extract_links h join domain base links seen).1.length ≤ max_links ∧
    (∀ u ∈ (extract_links h join domain base links seen).1,
       netloc u = domain ∧ '#' ∉ u ∧ hasSkipExt u = false ∧
       (domain ≠ [] → ∃ pre rest, u = pre ++ (str "://" ++ rest))) ∧
    (∀ link rest followed s, (link = [] ∨ isBlockedHref link = true) →
       extractLinksAux h join domain base (link :: rest) followed s =
       extractLinksAux h join domain base rest followed s) := by
  refine ⟨?_, ?_, ?_⟩
  · have hl := extractLinksAux_length h join domain base links 0 seen
    simpa [extract_links] using hl
  · intro u hu
    obtain ⟨hnet, hskip, link, hlink⟩ :=
      extractLinksAux_mem h join domain base links 0 seen u hu
    refine ⟨hnet, hlink ▸ hash_not_mem_urldefrag _, hskip, ?_⟩
    intro hdom
    cases heq : afterSchemeSep u with
    | none =>
        exfalso
        apply hdom
        rw [← hnet]
        unfold netloc
        rw [heq]
    | some r =>
        obtain ⟨pre, hp⟩ := afterSchemeSep_split u r heq
        exact ⟨pre, r, hp⟩
  · intro link rest f s hbad
    by_cases hf : max_links ≤ f
    · rw [extractLinksAux_capped h join domain base _ f s hf,
        extractLinksAux_capped h join domain base _ f s hf]
    · rw [extractLinksAux, if_neg hf, if_pos]
      rcases hbad with hb | hb <;> simp [hb]

/-- Witness for C6: a concrete page with one same-domain link; the yielded URL
satisfies every filter property. -/
theorem extract_links_filters_witness :
    netloc (str "http://example.com/a") = str "example.com" ∧
    '#' ∉ str "http://example.com/a" ∧
    hasSkipExt (str "http://example.com/a") = false ∧
    (str "example.com" ≠ ([] : Url) →
      ∃ pre rest, str "http://example.com/a" = pre ++ (str "://" ++ rest)) :=
  (extract_links_filters id (fun _ l => l) (str "example.com")
      (str "http://example.com/") [str "http://example.com/a"] []).2.1
    (str "http://example.com/a") (by decide)

/-! ## Requests issued over a run (spider.py start_requests / parse) -/

theorem extractLinksAux_seen_mono (h : Url → Url) (join : Url → Url → Url)
    (domain base : Url) (links : List Url) :
    ∀ followed seen,
      seen ⊆ (extractLinksAux h join domain base links followed seen).2 := by
  induction links with
  | nil => intro f s; simp [extractLinksAux]
  | cons link rest ih =>
      intro f s
      rw [extractLinksAux]
      split_ifs with h1 h2 h3 h4 h5
      · simp
      · exact ih f s
      · exact ih f s
      · exact ih f s
      · exact ih f s
      · exact fun x hx =>
          ih (f + 1) (h (urldefrag (join base link)) :: s) (List.mem_cons_of_mem _ hx)

theorem extractLinksAux_yield_fresh (h : Url → Url) (join : Url → Url → Url)
    (domain base : Url) (links : List Url) :
    ∀ followed seen,
      ((extractLinksAux h join domain base links followed seen).1.map h).Nodup ∧
      ∀ u ∈ (extractLinksAux h join domain base links followed seen).1,
        h u ∈ (extractLinksAux h join domain base links followed seen).2 ∧
        h u ∉ seen := by
  induction links with
  | nil => intro f s; simp [extractLinksAux]
  | cons link rest ih =>
      intro f s
      rw [extractLinksAux]
      split_ifs with h1 h2 h3 h4 h5
      · simp
      · exact ih f s
      · exact ih f s
      · exact ih f s
      · exact ih f s
      · obtain ⟨hnd, hfresh⟩ := ih (f + 1) (h (urldefrag (join base link)) :: s)
        have hmono := extractLinksAux_seen_mono h join domain base rest (f + 1)
          (h (urldefrag (join base link)) :: s)
        constructor
        · rw [List.map_cons, List.nodup_cons]
          refine ⟨?_, hnd⟩
          intro hmemmap
          obtain ⟨u, hu, hequ⟩ := List.mem_map.mp hmemmap
          exact (hfresh u hu).2 (by rw [hequ]; exact List.mem_cons_self _ _)
        · intro u hu
          rcases List.mem_cons.mp hu with rfl | hu2
          · exact ⟨hmono (List.mem_cons_self _ _), h5⟩
          · refine ⟨(hfresh u hu2).1, fun hmem => (hfresh u hu2).2 ?_⟩
            exact List.mem_cons_of_mem _ hmem

/-- A fetched page of the run: its response URL and the hrefs found on it. -/
structure PageResponse where
  base : Url
  links : List Url

/-- The link requests the spider yields while parsing a sequence of pages, in
order, threading `urls_seen` through `_extract_links` exactly as the single
spider instance does (spider.py lines 343-344 and 468-504).  Returns the
yielded request URLs and the final `urls_seen`. -/
def runLinkRequests (h : Url → Url) (join : Url → Url → Url) (domain : Url) :
    List PageResponse → List Url → List Url × List Url
  | [], seen => ([], seen)
  | p :: ps, seen =>
    ((extract_links h join domain p.base p.links seen).1 ++
       (runLinkRequests h join domain ps
         (extract_links h join domain p.base p.links seen).2).1,
     (runLinkRequests h join domain ps
       (extract_links h join domain p.base p.links seen).2).2)

/-- All fetch requests of a run: `start_requests` yields the seed with
`dont_filter=True` and without touching `urls_seen` (spider.py lines 285-293),
then the parsed pages contribute their `_extract_links` output, starting from
the empty `urls_seen` set (spider.py line 212). -/
def runRequests (h : Url → Url) (join : Url → Url → Url) (domain seed : Url)
    (pages : List PageResponse) : List Url :=
  seed :: (runLinkRequests h join domain pages []).1

theorem runLinkRequests_invariant (h : Url → Url) (join : Url → Url → Url)
    (domain : Url) (pages : List PageResponse) :
    ∀ seen,
      ((runLinkRequests h join domain pages seen).1.map h).Nodup ∧
      (∀ u ∈ (runLinkRequests h join domain pages seen).1, h u ∉ seen) ∧
      seen ⊆ (runLinkRequests h join domain pages seen).2 ∧
      ∀ u ∈ (runLinkRequests h join domain pages seen).1,
        h u ∈ (runLinkRequests h join domain pages seen).2 := by
  induction pages with
  | nil => intro seen; simp [runLinkRequests]
  | cons p ps ih =>
      intro seen
      have hpage := extractLinksAux_yield_fresh h join domain p.base p.links 0 seen
      have hpmono := extractLinksAux_seen_mono h join domain p.base p.links 0 seen
      obtain ⟨ihnd, ihfresh, ihmono, ihin⟩ :=
        ih (extract_links h join domain p.base p.links seen).2
      rw [runLinkRequests]
      refine ⟨?_, ?_, ?_, ?_⟩
      · rw [List.map_append, List.nodup_append]
        refine ⟨hpage.1, ihnd, ?_⟩
        intro x hx hy
        obtain ⟨u, hu, hequ⟩ := List.mem_map.mp hx
        obtain ⟨v, hv, heqv⟩ := List.mem_map.mp hy
        have hin : h u ∈ (extract_links h join domain p.base p.links seen).2 :=
          (hpage.2 u hu).1
        have hout : h v ∉ (extract_links h join domain p.base p.links seen).2 :=
          ihfresh v hv
        rw [hequ] at hin
        rw [heqv] at hout
        exact hout hin
      · intro u hu
        rcases List.mem_append.mp hu with hu1 | hu2
        · exact (hpage.2 u hu1).2
        · exact fun hmem => ihfresh u hu2 (hpmono hmem)
      · exact fun x hx => ihmono (hpmono hx)
      · intro u hu
        rcases List.mem_append.mp hu with hu1 | hu2
        · exact ihmono ((hpage.2 u hu1).1)
        · exact ihin u hu2

/-- C2 (counterexample): the seed request is issued by `start_requests` without
inserting the seed's fingerprint into `urls_seen`, so when the seed page links
back to the seed URL the run issues a second fetch request for the same
fingerprint: the claimed at-most-once property fails.  Concretely (with the
hash and `urljoin` instantiated on already-absolute URLs), the run's request
list is `[seed, seed]`. -/
theorem run_fetch_dedup_counterexample :
    runRequests id (fun _ l => l) (str "example.com") (str "http://example.com/")
        [⟨str "http://example.com/", [str "http://example.com/"]⟩] =
      [str "http://example.com/", str "http://example.com/"] ∧
    ¬ ((runRequests id (fun _ l => l) (str "example.com") (str "http://example.com/")
        [⟨str "http://example.com/", [str "http://example.com/"]⟩]).map id).Nodup := by
  decide

/-- C2 (amended): every fetch request yielded by `_extract_links` occurs at
most once per fingerprint over the whole run — the fingerprint is inserted
into `urls_seen` before the request is yielded — for any hash function, any
`urljoin`, and any sequence of parsed pages; the guarantee simply does not
extend to the seed request, which `start_requests` issues outside the seen
set. -/
theorem run_link_requests_at_most_once (h : Url → Url) (join : Url → Url → Url)
    (domain : Url) (pages : List PageResponse) :
    ((runLinkRequests h join domain pages []).1.map h).Nodup :=
  (runLinkRequests_invariant h join domain pages []).1

/-! ## AssetUploader (spider.py) -/

/-- An asset dict as built by `_extract_assets` and mutated by the uploader
(spider.py lines 410-435, 142-143). -/
structure Asset where
  type : Url
  url : Url
  cloud_url : Option Url
  file_size : Option ℕ
deriving DecidableEq

/-- The dict `download_and_upload` returns on its success path (spider.py
lines 115-118): `cloud_url = upload_result.get('secure_url')` (possibly
absent) and `file_size = len(content)`. -/
structure UploadOutcome where
  cloud_url : Option Url
  file_size : ℕ
deriving DecidableEq

/-- The 10 MB cap (spider.py line 93). -/
def MAX_ASSET_BYTES : ℕ := 10 * 1024 * 1024

/-- The download response seen by `download_and_upload`: HTTP status, the
`content-length` header (`none` models an absent or empty header — Python's
`if content_length` guard), and the actual body size `len(response.content)`. -/
structure AssetResponse where
  status_code : ℕ
  content_length : Option ℕ
  body_size : ℕ
deriving DecidableEq

/-- The guard `content_length and int(content_length) > 10 * 1024 * 1024`
(spider.py line 93): it fires only when the header is present. -/
def contentLengthExceedsCap : Option ℕ → Bool
  | some n => decide (MAX_ASSET_BYTES < n)
  | none => false

/-- `AssetUploader.download_and_upload` (spider.py lines 81-122).  `enabled`
is `CLOUDINARY_ENABLED`; `resp = none` models `session.get` raising (timeout,
connection error), caught by the blanket `except` which returns `None`;
`cloudinary_upload = none` models `cloudinary.uploader.upload` raising, and
`some secure_url` its returned `secure_url` field.  Returns `None` (here
`none`) whenever the asset is abandoned. -/
def download_and_upload (enabled : Bool) (resp : Option AssetResponse)
    (cloudinary_upload : Option (Option Url)) : Option UploadOutcome :=
  if enabled = false then none
  else
    match resp with
    | none => none
    | some r =>
      if r.status_code ≠ 200 then none
      else if contentLengthExceedsCap r.content_length then none
      else
        match cloudinary_upload with
        | none => none
        | some secure_url => some ⟨secure_url, r.body_size⟩

/-- The per-asset update in `upload_assets_concurrent` (spider.py lines
139-146): on a `None` result or a raised exception the asset is appended
unmodified; otherwise its `cloud_url` and `file_size` are overwritten.  `r`
maps each asset to the result of its `download_and_upload` future. -/
def apply_upload (r : Asset → Option UploadOutcome) (a : Asset) : Asset :=
  match r a with
  | none => a
  | some res => { a with cloud_url := res.cloud_url, file_size := some res.file_size }

/-- `AssetUploader.upload_assets_concurrent` (spider.py lines 124-148).  The
real code appends assets in future-completion order; the claims proved below
do not depend on the ordering of the returned list, which is modelled as the
input order. -/
def upload_assets_concurrent (enabled : Bool) (r : Asset → Option UploadOutcome)
    (assets_list : List Asset) : List Asset :=
  if enabled = false ∨ assets_list = [] then assets_list
  else assets_list.map (apply_upload r)

/-- C8 (counterexample): an asset whose download returns status 200 with **no**
`content-length` header and an 11 MB body is *not* abandoned — the size guard
only inspects the header — so `download_and_upload` uploads it and returns a
result, contradicting the claim that any asset over the 10 MB cap is
abandoned. -/
theorem download_and_upload_oversized_counterexample :
    MAX_ASSET_BYTES < 10 * 1024 * 1024 + 1 ∧
    download_and_upload true (some ⟨200, none, 10 * 1024 * 1024 + 1⟩)
        (some (some (str "https://res.cloudinary.example/x"))) =
      some ⟨some (str "https://res.cloudinary.example/x"), 10 * 1024 * 1024 + 1⟩ := by
  constructor
  · unfold MAX_ASSET_BYTES; omega
  · rfl

/-- C8 (amended): `download_and_upload` abandons the asset (returns `None`, so
the caller leaves it unmodified with its `cloud_url` still null) whenever the
download status is not 200, or whenever the `content-length` header is present
and exceeds the 10 MB cap; an oversized body without that header is not
abandoned. -/
theorem download_and_upload_abandons (enabled : Bool) (r : AssetResponse)
    (up : Option (Option Url)) :
    (r.status_code ≠ 200 → download_and_upload enabled (some r) up = none) ∧
    (∀ n, r.content_length = some n → MAX_ASSET_BYTES < n →
      download_and_upload enabled (some r) up = none) := by
  constructor
  · intro hst
    simp [download_and_upload, hst]
  · intro n hcl hcap
    have hcle : contentLengthExceedsCap r.content_length = true := by
      rw [hcl]
      unfold contentLengthExceedsCap
      simpa using hcap
    simp [download_and_upload, hcle]

/-- Witness for C8 (amended) at a concrete 404 download. -/
theorem download_and_upload_abandons_witness :
    (404 : ℕ) ≠ 200 ∧
    download_and_upload true (some ⟨404, none, 17⟩) (some (some (str "u"))) = none :=
  ⟨by decide,
   (download_and_upload_abandons true ⟨404, none, 17⟩ (some (some (str "u")))).1
     (by decide)⟩

/-! ## WebCrawlerSpider.parse (spider.py lines 295-348) -/

/-- The response as `parse` sees it, together with what the `response.css`
selectors of `_extract_page_data` / `_extract_assets` / `_extract_links`
produce on it: the extracted title, content, asset dicts and hrefs are inputs
of the model, since the HTML selector engine is library code. -/
structure ParsedPage where
  url : Url
  is_text : Bool
  status_code : ℕ
  title : Url
  content : Url
  assets : List Asset
  links : List Url

/-- The item dict `parse` yields (spider.py lines 389-399 and 330). -/
structure Item where
  url : Url
  title : Url
  content : Url
  status_code : ℕ
  assets : List Asset
deriving DecidableEq

/-- Spider counters and sets (spider.py lines 208-213) plus the progress value
the run has accumulated. -/
structure SpiderState where
  pages_crawled : ℕ
  pages_failed : ℕ
  assets_uploaded : ℕ
  urls_crawled : List Url
  urls_seen : List Url
  progress : ℚ
deriving DecidableEq

/-- `sum(1 for a in uploaded_assets if a.get('cloud_url'))` (spider.py line
331); an empty-string `cloud_url` would be falsy in Python, which no claim
depends on. -/
def countUploaded (l : List Asset) : ℕ :=
  (l.filter (fun a => a.cloud_url.isSome)).length

/-- `WebCrawlerSpider.parse` (spider.py lines 295-348): reject non-text
responses and statuses ≥ 400 as failures; drop already-crawled URL hashes;
otherwise record the hash, bump `pages_crawled`, upload the page's assets
(when there are any), bump `assets_uploaded` and the progress, yield the item
and then the `_extract_links` requests.  `r` maps each asset to its upload
outcome; returns the new state, the yielded items, and the yielded request
URLs. -/
def parse (h : Url → Url) (join : Url → Url → Url) (domain : Url) (enabled : Bool)
    (r : Asset → Option UploadOutcome) (s : SpiderState) (p : ParsedPage) :
    SpiderState × List Item × List Url :=
  if p.is_text = false then
    ({ s with pages_failed := s.pages_failed + 1 }, [], [])
  else if 400 ≤ p.status_code then
    ({ s with pages_failed := s.pages_failed + 1 }, [], [])
  else if h p.url ∈ s.urls_crawled then (s, [], [])
  else
    ({ pages_crawled := s.pages_crawled + 1,
       pages_failed := s.pages_failed,
       assets_uploaded := s.assets_uploaded +
         (if p.assets = [] then 0
          else countUploaded (upload_assets_concurrent enabled r p.assets)),
       urls_crawled := h p.url :: s.urls_crawled,
       urls_seen := (extract_links h join domain p.url p.links s.urls_seen).2,
       progress := s.progress + progress_increment },
     [⟨p.url, p.title, p.content, p.status_code,
       if p.assets = [] then p.assets
       else upload_assets_concurrent enabled r p.assets⟩],
     (extract_links h join domain p.url p.links s.urls_seen).1)

/-- C7: for a text response with status < 400 whose URL hash is new, `parse`
counts the page as successfully processed and emits its item **for every**
per-asset outcome function `r`: `pages_crawled` is incremented, `pages_failed`
is untouched, exactly one item is emitted, and every asset whose download or
upload failed (`r a = none`) appears in the emitted item unmodified — in
particular with its `cloud_url` still null if it was null. -/
theorem parse_counts_page_despite_asset_failures (h : Url → Url)
    (join : Url → Url → Url) (domain : Url) (enabled : Bool)
    (r : Asset → Option UploadOutcome) (s : SpiderState) (p : ParsedPage)
    (htext : p.is_text = true) (hstatus : p.status_code < 400)
    (hnew : h p.url ∉ s.urls_crawled) :
    (parse h join domain enabled r s p).1.pages_crawled = s.pages_crawled + 1 ∧
    (parse h join domain enabled r s p).1.pages_failed = s.pages_failed ∧
    ∃ item, (parse h join domain enabled r s p).2.1 = [item] ∧
      item.url = p.url ∧
      ∀ a ∈ p.assets, r a = none → a ∈ item.assets := by
  unfold parse
  rw [if_neg (by simp [htext]), if_neg (by omega), if_neg hnew]
  refine ⟨rfl, rfl, ⟨_, rfl, rfl, ?_⟩⟩
  intro a ha hra
  have hne : p.assets ≠ [] := by
    intro hempty
    rw [hempty] at ha
    exact (List.not_mem_nil a) ha
  rw [if_neg hne]
  unfold upload_assets_concurrent
  split_ifs with hdis
  · exact ha
  · apply List.mem_map.mpr
    refine ⟨a, ha, ?_⟩
    unfold apply_upload
    rw [hra]

/-- Witness for C7: a concrete new text page with one asset whose upload
fails (`r` returns `none` for every asset); the page is still counted and the
asset is emitted unchanged. -/
theorem parse_counts_page_despite_asset_failures_witness :
    (true = true ∧ (200 : ℕ) < 400 ∧
      id (str "http://example.com/") ∉ ([] : List Url)) ∧
    ((parse id (fun _ l => l) (str "example.com") true (fun _ => none)
        ⟨0, 0, 0, [], [], 0⟩
        ⟨str "http://example.com/", true, 200, str "T", str "C",
          [⟨str "image", str "http://example.com/i.png", none, none⟩],
          []⟩).1.pages_crawled = 0 + 1 ∧
     (parse id (fun _ l => l) (str "example.com") true (fun _ => none)
        ⟨0, 0, 0, [], [], 0⟩
        ⟨str "http://example.com/", true, 200, str "T", str "C",
          [⟨str "image", str "http://example.com/i.png", none, none⟩],
          []⟩).1.pages_failed = 0 ∧
     ∃ item, (parse id (fun _ l => l) (str "example.com") true (fun _ => none)
        ⟨0, 0, 0, [], [], 0⟩
        ⟨str "http://example.com/", true, 200, str "T", str "C",
          [⟨str "image", str "http://example.com/i.png", none, none⟩],
          []⟩).2.1 = [item] ∧
       item.url = str "http://example.com/" ∧
       ∀ a ∈ [(⟨str "image", str "http://example.com/i.png", none, none⟩ : Asset)],
         (fun _ => (none : Option UploadOutcome)) a = none → a ∈ item.assets) :=
  ⟨⟨rfl, by decide, by decide⟩,
   parse_counts_page_despite_asset_failures id (fun _ l => l) (str "example.com")
     true (fun _ => none) ⟨0, 0, 0, [], [], 0⟩
     ⟨str "http://example.com/", true, 200, str "T", str "C",
       [⟨str "image", str "http://example.com/i.png", none, none⟩], []⟩
     rfl (by decide) (by decide)⟩

/-! ## Terminal run status (spider.py, pipelines.py, app.py) -/

/-- The status `WebCrawlerSpider.spider_closed` persists (spider.py line 272):
`'completed' if self.pages_crawled > 0 else 'failed'`. -/
def spider_closed_status (pages_crawled : ℕ) : Url :=
  if pages_crawled > 0 then str "completed" else str "failed"

/-- The status `PostgreSQLPipeline.close_spider` persists (pipelines.py line
35): always `'completed'`, independent of `spider.pages_crawled`. -/
def pipeline_close_status : Url := str "completed"

/-- The status `run_crawl_task` persists after the spider process exits
(app.py lines 120-143): `'completed'` iff the return code is 0, `'failed'`
otherwise, independent of how many pages were crawled. -/
def supervisor_final_status (return_code : ℤ) : Url :=
  if return_code = 0 then str "completed" else str "failed"

/-- The sequence of status values persisted for one run under the Flask
supervisor, in write order: `'running'` at open (spider.py line 236,
pipelines.py line 14), then at spider close the pipeline's unconditional
`'completed'` (Scrapy closes the item pipelines before firing the
`spider_closed` signal), then the spider's own conditional status, and — after
the subprocess exits — the supervisor's exit-code-based status. -/
def run_status_writes (pages_crawled : ℕ) (return_code : ℤ) : List Url :=
  [str "running", pipeline_close_status, spider_closed_status pages_crawled,
   supervisor_final_status return_code]

/-- The status a run's row holds once the run is terminal: the last write. -/
def persisted_status (pages_crawled : ℕ) (return_code : ℤ) : Url :=
  (run_status_writes pages_crawled return_code).getLastD []

/-- C1 (counterexample): a run whose spider process exits cleanly (return code
0, e.g. every request failed through `errback`) having crawled zero pages ends
with persisted status `'completed'`, not `'failed'`: the supervisor's final
write depends only on the exit code, so the claimed biconditional
`'completed' ↔ success signal ∧ pages_crawled > 0` is false at
`pages_crawled = 0`, `return_code = 0`. -/
theorem persisted_status_counterexample :
    ¬ (persisted_status 0 0 = str "completed" ↔ ((0 : ℤ) = 0 ∧ 0 < 0)) := by
  decide

/-- C1 (amended): the spider's own close-time write is `'completed'` iff at
least one page was crawled; but the pipeline's close handler writes
`'completed'` unconditionally and the Flask supervisor's last write makes the
terminal persisted status `'completed'` iff the process exit code is 0,
regardless of `pages_crawled`. -/
theorem persisted_status_exit_code (pages_crawled : ℕ) (return_code : ℤ) :
    (persisted_status pages_crawled return_code = str "completed" ↔
      return_code = 0) ∧
    (spider_closed_status pages_crawled = str "completed" ↔ 0 < pages_crawled) := by
  constructor
  · have hps : persisted_status pages_crawled return_code =
        supervisor_final_status return_code := rfl
    rw [hps]
    unfold supervisor_final_status
    split_ifs with hrc
    · simp [hrc]
    · exact ⟨fun hcontra => absurd hcontra (by decide), fun h0 => absurd h0 hrc⟩
  · unfold spider_closed_status
    split_ifs with hp
    · simp [hp]
    · exact ⟨fun hcontra => absurd hcontra (by decide), fun h0 => absurd h0 hp⟩

/-! ## The supervising tasks (celery_app.py, app.py) -/

/-- A Python local variable on a given code path: either never assigned, or
bound to a value (`bound none` models `process = None`). -/
inductive LocalVar (α : Type)
  | unbound
  | bound (v : Option α)
deriving DecidableEq

/-- The observable outcome of a task invocation: a returned result dict's
`'status'` field, or an unhandled exception by name. -/
inductive TaskOutcome
  | returned (status : Url)
  | raised (exc : Url)
deriving DecidableEq

/-- Python `try/except/finally` semantics for the one fact that matters here:
an exception raised while executing the `finally` block replaces whatever the
handler was returning. -/
def tryFinally (body : TaskOutcome) (finallyExc : Option Url) : TaskOutcome :=
  match finallyExc with
  | some e => .raised e
  | none => body

/-- The cleanup block `if process and process.poll() is None: ...`
(celery_app.py lines 172-179, app.py lines 178-189): evaluating the name
`process` raises `UnboundLocalError` when it was never assigned on the path
that reached the block; a `None` or live-process value raises nothing here. -/
def crawl_task_cleanup : LocalVar ℕ → Option Url
  | .unbound => some (str "UnboundLocalError")
  | .bound _ => none

/-- `celery_app.crawl_task` when `subprocess.Popen` raises `FileNotFoundError`
(the `scrapy` executable is not on PATH): the raise happens at line 62, before
`process` is ever assigned; the handler at lines 148-158 builds and returns
`{'status': 'failed', ...}`; then the `finally` block runs with `process`
unbound. -/
def crawl_task_scrapy_not_found : TaskOutcome :=
  tryFinally (.returned (str "failed")) (crawl_task_cleanup .unbound)

/-- `app.run_crawl_task` on the same launch failure: `process = None` is
assigned *before* the `try` (app.py line 31), the `except FileNotFoundError`
handler persists status `'failed'` and the `finally` block sees a bound
`process`. -/
def run_crawl_task_scrapy_not_found : TaskOutcome :=
  tryFinally (.returned (str "failed")) (crawl_task_cleanup (.bound none))

/-- C9: the claim describes the intended behaviour — and `app.run_crawl_task`
implements it — but `celery_app.crawl_task` does not: on the
scrapy-not-found path its `finally` block reads the never-assigned local
`process`, so the task raises `UnboundLocalError` instead of returning the
`'failed'` result its handler built, and the cleanup path itself is what
crashes. -/
theorem crawl_task_launch_failure_raises :
    crawl_task_scrapy_not_found = .raised (str "UnboundLocalError") ∧
    crawl_task_scrapy_not_found ≠ .returned (str "failed") ∧
    run_crawl_task_scrapy_not_found = .returned (str "failed") := by
  refine ⟨rfl, ?_, rfl⟩
  decide

/-! ## DatabaseOperations.update_crawl_statistics (operations.py) -/

/-- A `crawl_statistics` row for a domain (operations.py lines 331-341); every
column is nullable. -/
structure CrawlStatisticsRow where
  total_pages : Option ℤ
  total_assets : Option ℤ
  status : Option Url
  start_time : Option ℕ
  end_time : Option ℕ
deriving DecidableEq

/-- SQL `COALESCE(EXCLUDED.col, crawl_statistics.col)`: the new value when it
is non-NULL, the stored one otherwise. -/
def coalesce {α : Type} (newv old : Option α) : Option α :=
  match newv with
  | some v => some v
  | none => old

/-- `DatabaseOperations.update_crawl_statistics` (operations.py lines
322-354): an upsert keyed by domain; on conflict every column is set to
`COALESCE(EXCLUDED.col, old.col)`.  `existing` is the row currently stored
for the domain (`none` when the insert does not conflict). -/
def update_crawl_statistics (existing : Option CrawlStatisticsRow)
    (total_pages total_assets : Option ℤ) (status : Option Url)
    (start_time end_time : Option ℕ) : CrawlStatisticsRow :=
  match existing with
  | none => ⟨total_pages, total_assets, status, start_time, end_time⟩
  | some old =>
      ⟨coalesce total_pages old.total_pages,
       coalesce total_assets old.total_assets,
       coalesce status old.status,
       coalesce start_time old.start_time,
       coalesce end_time old.end_time⟩

/-- C10: for a domain with an existing statistics row, every argument passed
as `None` leaves the corresponding stored column unchanged, and every
non-`None` argument overwrites its column — a partial update never clears a
previously recorded value. -/
theorem update_crawl_statistics_frame (old : CrawlStatisticsRow)
    (tp ta : Option ℤ) (st : Option Url) (s e : Option ℕ) :
    (tp = none →
      (update_crawl_statistics (some old) tp ta st s e).total_pages =
        old.total_pages) ∧
    (ta = none →
      (update_crawl_statistics (some old) tp ta st s e).total_assets =
        old.total_assets) ∧
    (st = none →
      (update_crawl_statistics (some old) tp ta st s e).status = old.status) ∧
    (s = none →
      (update_crawl_statistics (some old) tp ta st s e).start_time =
        old.start_time) ∧
    (e = none →
      (update_crawl_statistics (some old) tp ta st s e).end_time =
        old.end_time) ∧
    (∀ v, tp = some v →
      (update_crawl_statistics (some old) tp ta st s e).total_pages = some v) ∧
    (∀ v, ta = some v →
      (update_crawl_statistics (some old) tp ta st s e).total_assets = some v) ∧
    (∀ v, st = some v →
      (update_crawl_statistics (some old) tp ta st s e).status = some v) ∧
    (∀ v, s = some v →
      (update_crawl_statistics (some old) tp ta st s e).start_time = some v) ∧
    (∀ v, e = some v →
      (update_crawl_statistics (some old) tp ta st s e).end_time = some v) := by
  refine ⟨?_, ?_, ?_, ?_, ?_, ?_, ?_, ?_, ?_, ?_⟩ <;>
    first
      | (intro hx; rw [hx]; rfl)
      | (intro v hx; rw [hx]; rfl)

/-- Witness for C10: a partial update (only `total_assets` supplied) on a row
that already records `total_pages = 5` keeps `total_pages = 5`. -/
theorem update_crawl_statistics_frame_witness :
    (update_crawl_statistics
        (some ⟨some 5, some 3, some (str "running"), some 1, none⟩)
        none (some 7) none none none).total_pages = some 5 :=
  (update_crawl_statistics_frame ⟨some 5, some 3, some (str "running"), some 1, none⟩
      none (some 7) none none none).1 rfl

end FlaskWebScraper
